import Mathlib

/-!
Codeplan TUI — verification of the dashboard, updater and task-control programs

Shallow embedding of the three Rust programs of the `codeplan-tui` repository:

* `src/codeplan-tui/src/main.rs` — the interactive dashboard: menu state machine,
  per-view selection with wraparound, action dispatch to detached child processes;
* `src/codeplan-updater/src/main.rs` — the cache fetcher;
* `src/codeplan-task-control/src/main.rs` — the single-task mutator.

Machine integers: every index in the source is a Rust `usize`.  All claims
restrict cache collections to length `L ≥ 1`, and selection arithmetic stays far
below `2 ^ 64`, so `Nat` models `usize` exactly on the inputs considered here;
the one truncated subtraction (`amount - 1`) is noted at its definition.
Fallible operations (file reads, channel sends, HTTP fetches) are modelled by
`Except`, with the outcome of each external call supplied as a parameter.
-/

namespace Codeplan

/-- The dashboard's `struct Task` (dates abstracted to timestamps). -/
structure Task where
  id : Nat
  project : String
  content_preview : String
  content : String
  begin_date : Nat
  end_date : Nat
  finish_date : Nat
deriving DecidableEq, Repr

/-- The dashboard's `struct Comment`. -/
structure Comment where
  id : Nat
  task_preview : String
  content : String
  created_at : Nat
deriving DecidableEq, Repr

/-- The dashboard's `struct Project`. -/
structure Project where
  id : Nat
  name : String
  customer_name : String
  customer_document : String
  customer_contact : String
  created_at : Nat
deriving DecidableEq, Repr

/-- The dashboard's `enum MenuItem`. -/
inductive MenuItem where
  | home
  | monitor
  | comments
  | projects
  | license
  | error
deriving DecidableEq, Repr

/-- The conversion `impl From<MenuItem> for usize`. -/
def MenuItem.toUsize : MenuItem → Nat
  | .home => 0
  | .monitor => 1
  | .comments => 2
  | .projects => 3
  | .license => 4
  | .error => 5

/-- Source: `let home_position: usize = 0;`. -/
def homePosition : Nat := 0

/-- Source: `let monitor_position: usize = 1;`. -/
def monitorPosition : Nat := 1

/-- Source: `let comments_position: usize = 2;`. -/
def commentsPosition : Nat := 2

/-- Source: `let projects_position: usize = 3;`. -/
def projectsPosition : Nat := 3

/-- Source: `let license_position: usize = 4;`. -/
def licensePosition : Nat := 4

/-- The three cache files, as the parsed collections the dashboard reads on each
key press (`read_db_task`, `read_db_comment`, `read_db_project`).  Claims about
the key handlers assume these reads succeed; a read or parse failure aborts the
process via `.expect` and is outside the handlers' state transitions. -/
structure Cache where
  tasks : List Task
  comments : List Comment
  projects : List Project
deriving DecidableEq, Repr

/-- The dashboard's mutable state: the active menu tab and the three
`ListState` selections (`tasks_list_state`, `comments_list_state`,
`projects_list_state`); `ListState.selected()` is an `Option<usize>`. -/
structure DashState where
  active : MenuItem
  tasksSel : Option Nat
  commentsSel : Option Nat
  projectsSel : Option Nat
deriving DecidableEq, Repr

/-- The state set up in `main` before the event loop: `Home` active and each
list state holding `select(Some(0))`. -/
def initState : DashState :=
  { active := MenuItem.home
    tasksSel := some 0
    commentsSel := some 0
    projectsSel := some 0 }

/-- The key codes the event match distinguishes: `KeyCode::Char(c)`,
`KeyCode::Down`, `KeyCode::Up`, and the catch-all `_` arm. -/
inductive KeyCode where
  | char (c : Char)
  | down
  | up
  | otherKey
deriving DecidableEq, Repr

/-- A detached child process spawned by the dashboard (`Command::new(program)
.args(args).spawn()`). -/
structure Spawn where
  program : String
  args : List String
deriving DecidableEq, Repr

/-- The observable effect of handling one event: the successor dashboard state,
the cache (the handlers only read it; it is carried through so frame claims are
statable), the child processes spawned, and whether the loop breaks (`s`). -/
structure StepResult where
  state : DashState
  cache : Cache
  spawns : List Spawn
  quit : Bool
deriving DecidableEq, Repr

/-- A result that changes nothing: state and cache carried through,
no spawn, no quit. -/
def noop (cache : Cache) (s : DashState) : StepResult :=
  { state := s, cache := cache, spawns := [], quit := false }

/-- Source function `complete_task(&mut tasks_list_state)`: reads the selection, adds 1 to a
local copy, and spawns `./codeplan-task-control -complete <selected+1>`.
The `ListState` itself is never written, so the state is unchanged. -/
def complete_task (cache : Cache) (s : DashState) : StepResult :=
  match s.tasksSel with
  | some selected =>
      { state := s, cache := cache
        spawns := [{ program := "./codeplan-task-control"
                     args := ["-complete", toString (selected + 1)] }]
        quit := false }
  | none => noop cache s

/-- Source function `delete_task(&mut tasks_list_state)`: same shape with `-delete`. -/
def delete_task (cache : Cache) (s : DashState) : StepResult :=
  match s.tasksSel with
  | some selected =>
      { state := s, cache := cache
        spawns := [{ program := "./codeplan-task-control"
                     args := ["-delete", toString (selected + 1)] }]
        quit := false }
  | none => noop cache s

/-- The `Down` arm's wraparound computation, identical in all three views:
`if selected >= amount - 1 { 0 } else { selected + 1 }`.  `amount - 1` is the
source's `usize` subtraction; `Nat` truncated subtraction agrees with it for
every `amount ≥ 1`, and the empty-collection case (`amount = 0`) is outside the
spec's contract (it panics in a debug build). -/
def downSelect (selected amount : Nat) : Nat :=
  if selected ≥ amount - 1 then 0 else selected + 1

/-- The `Up` arm's wraparound computation, identical in all three views:
`if selected > 0 { selected - 1 } else { amount - 1 }`. -/
def upSelect (selected amount : Nat) : Nat :=
  if selected > 0 then selected - 1 else amount - 1

/-- The `Event::Input(event)` match of the dashboard's consumer loop, one arm
per recognized key.  Each `Down`/`Up` arm re-reads the relevant cache file at
the moment the key is processed (`read_db_task().expect(..).len()` etc.). -/
def handleKey (cache : Cache) (s : DashState) (k : KeyCode) : StepResult :=
  match k with
  | .char c =>
      if c = 's' then
        { state := s, cache := cache, spawns := [], quit := true }
      else if c = 'i' then
        { state := { s with active := MenuItem.home }, cache := cache
          spawns := [], quit := false }
      else if c = 't' then
        { state := { s with active := MenuItem.monitor }, cache := cache
          spawns := [], quit := false }
      else if c = 'c' then
        { state := { s with active := MenuItem.comments }, cache := cache
          spawns := [], quit := false }
      else if c = 'p' then
        { state := { s with active := MenuItem.projects }, cache := cache
          spawns := [], quit := false }
      else if c = 'l' then
        { state := { s with active := MenuItem.license }, cache := cache
          spawns := [], quit := false }
      else if c = 'u' then
        { state := s, cache := cache
          spawns := [{ program := "./codeplan-updater", args := [] }]
          quit := false }
      else if c = 'f' then
        if MenuItem.toUsize s.active = monitorPosition then
          complete_task cache s
        else noop cache s
      else if c = 'd' then
        if MenuItem.toUsize s.active = monitorPosition then
          delete_task cache s
        else noop cache s
      else noop cache s
  | .down =>
      let pos := MenuItem.toUsize s.active
      if pos = monitorPosition then
        match s.tasksSel with
        | some selected =>
            let amount := cache.tasks.length
            { state := { s with tasksSel := some (downSelect selected amount) }
              cache := cache, spawns := [], quit := false }
        | none => noop cache s
      else if pos = commentsPosition then
        match s.commentsSel with
        | some selected =>
            let amount := cache.comments.length
            { state := { s with commentsSel := some (downSelect selected amount) }
              cache := cache, spawns := [], quit := false }
        | none => noop cache s
      else if pos = projectsPosition then
        match s.projectsSel with
        | some selected =>
            let amount := cache.projects.length
            { state := { s with projectsSel := some (downSelect selected amount) }
              cache := cache, spawns := [], quit := false }
        | none => noop cache s
      else noop cache s
  | .up =>
      let pos := MenuItem.toUsize s.active
      if pos = monitorPosition then
        match s.tasksSel with
        | some selected =>
            let amount := cache.tasks.length
            { state := { s with tasksSel := some (upSelect selected amount) }
              cache := cache, spawns := [], quit := false }
        | none => noop cache s
      else if pos = commentsPosition then
        match s.commentsSel with
        | some selected =>
            let amount := cache.comments.length
            { state := { s with commentsSel := some (upSelect selected amount) }
              cache := cache, spawns := [], quit := false }
        | none => noop cache s
      else if pos = projectsPosition then
        match s.projectsSel with
        | some selected =>
            let amount := cache.projects.length
            { state := { s with projectsSel := some (upSelect selected amount) }
              cache := cache, spawns := [], quit := false }
        | none => noop cache s
      else noop cache s
  | .otherKey => noop cache s

/-- The three list-backed views. -/
inductive View where
  | tasksView
  | commentsView
  | projectsView
deriving DecidableEq, Repr

/-- The menu item under which a view is active. -/
def View.menu : View → MenuItem
  | .tasksView => MenuItem.monitor
  | .commentsView => MenuItem.comments
  | .projectsView => MenuItem.projects

/-- The selection `ListState` belonging to a view. -/
def DashState.selOf (s : DashState) : View → Option Nat
  | .tasksView => s.tasksSel
  | .commentsView => s.commentsSel
  | .projectsView => s.projectsSel

/-- The length of the cache collection backing a view. -/
def Cache.lenOf (c : Cache) : View → Nat
  | .tasksView => c.tasks.length
  | .commentsView => c.comments.length
  | .projectsView => c.projects.length

/-- A sample task record for concrete evaluations. -/
def sampleTask (n : Nat) : Task :=
  { id := n, project := "p", content_preview := "t", content := "c"
    begin_date := 0, end_date := 0, finish_date := 0 }

/-- A sample comment record for concrete evaluations. -/
def sampleComment (n : Nat) : Comment :=
  { id := n, task_preview := "t", content := "c", created_at := 0 }

/-- A sample project record for concrete evaluations. -/
def sampleProject (n : Nat) : Project :=
  { id := n, name := "n", customer_name := "cn", customer_document := "cd"
    customer_contact := "cc", created_at := 0 }

/-- A sample cache: 3 tasks, 1 comment, 2 projects. -/
def sampleCache : Cache :=
  { tasks := [sampleTask 1, sampleTask 2, sampleTask 3]
    comments := [sampleComment 1]
    projects := [sampleProject 1, sampleProject 2] }

/-- A sample state with the `Monitor` view active and task selection 2. -/
def monitorState : DashState :=
  { active := MenuItem.monitor
    tasksSel := some 2
    commentsSel := some 0
    projectsSel := some 0 }

/-- One dashboard state step under a `Down` press (the cache re-read on each
press yields the same collections while no external writer runs). -/
def stepDown (cache : Cache) (s : DashState) : DashState :=
  (handleKey cache s KeyCode.down).state

/-- One dashboard state step under an `Up` press. -/
def stepUp (cache : Cache) (s : DashState) : DashState :=
  (handleKey cache s KeyCode.up).state

/-- A sample state with the `Monitor` view active and task selection 0. -/
def monitorState0 : DashState :=
  { active := MenuItem.monitor
    tasksSel := some 0
    commentsSel := some 0
    projectsSel := some 0 }

/-- The five view-switching keys of the event match. -/
def navKeys : List KeyCode :=
  [KeyCode.char 'i', KeyCode.char 't', KeyCode.char 'c',
   KeyCode.char 'p', KeyCode.char 'l']

/-- Folding a sequence of key presses through the event match; each press may
observe a different cache snapshot (the files can change between presses). -/
def runInputs : DashState → List (Cache × KeyCode) → DashState
  | s, [] => s
  | s, (c, k) :: rest => runInputs ((handleKey c s k).state) rest

/-- A sample navigation sequence: `t`, then `c`, then back to `t`. -/
def navSeq : List (Cache × KeyCode) :=
  [(sampleCache, KeyCode.char 't'), (sampleCache, KeyCode.char 'c'),
   (sampleCache, KeyCode.char 't')]

/-- The dashboard's `enum Event` with variants `Input(I)` and `Tick`. -/
inductive Event where
  | input (k : KeyCode)
  | tick
deriving DecidableEq, Repr

/-- The consumer loop's reaction to one received event: key events go through
the key match, ticks only trigger the redraw and change nothing. -/
def handleEvent (cache : Cache) (s : DashState) : Event → StepResult
  | .input k => handleKey cache s k
  | .tick => noop cache s

/-- The consumer loop over a finite prefix of the event stream, stopping when
the `s` arm breaks the loop. -/
def runEvents : DashState → List (Cache × Event) → DashState
  | s, [] => s
  | s, (c, e) :: rest =>
      let r := handleEvent c s e
      if r.quit then r.state else runEvents r.state rest

/-- The outcome of each external call one iteration of the producer thread can
make: `event::poll(timeout)`, `event::read()` (`some k` when it yields
`CEvent::Key`), `tx.send(Event::Input(..))`, the `last_tick.elapsed() >=
tick_rate` test, and `tx.send(Event::Tick)`. -/
structure ProdEnv where
  pollResult : Except String Bool
  readResult : Except String (Option KeyCode)
  sendInputResult : Except String Unit
  tickDue : Bool
  sendTickResult : Except String Unit

/-- What one producer iteration accomplishes when it does not panic: the
events that reached the channel, and whether `last_tick` was reset. -/
structure ProdStep where
  sent : List Event
  resetBaseline : Bool
deriving DecidableEq, Repr

/-- One iteration of the producer thread's `loop` body.  A `Except.error`
result is a panic (`.expect(msg)`), fatal to the thread; note the `Tick` send
is wrapped in `if let Ok(_) = tx.send(Event::Tick)`, so its failure is not a
panic — the iteration completes, merely without resetting `last_tick`. -/
def producerStep (env : ProdEnv) : Except String ProdStep :=
  match env.pollResult with
  | Except.error _ => Except.error "poll works"
  | Except.ok polled =>
      let afterInput : Except String (List Event) :=
        if polled then
          match env.readResult with
          | Except.error _ => Except.error "can read events"
          | Except.ok (some k) =>
              match env.sendInputResult with
              | Except.error _ => Except.error "can send events"
              | Except.ok _ => Except.ok [Event.input k]
          | Except.ok none => Except.ok []
        else Except.ok []
      match afterInput with
      | Except.error e => Except.error e
      | Except.ok sentInput =>
          if env.tickDue then
            match env.sendTickResult with
            | Except.ok _ =>
                Except.ok { sent := sentInput ++ [Event.tick], resetBaseline := true }
            | Except.error _ =>
                Except.ok { sent := sentInput, resetBaseline := false }
          else Except.ok { sent := sentInput, resetBaseline := false }

/-- An iteration in which nothing was polled, a tick is due, and the channel
rejects the `Tick` send. -/
def tickFailEnv : ProdEnv :=
  { pollResult := Except.ok false
    readResult := Except.ok none
    sendInputResult := Except.ok ()
    tickDue := true
    sendTickResult := Except.error "disconnected" }

/-- An iteration in which the poll itself fails. -/
def pollFailEnv : ProdEnv :=
  { pollResult := Except.error "EIO"
    readResult := Except.ok none
    sendInputResult := Except.ok ()
    tickDue := false
    sendTickResult := Except.ok () }

/-- The three on-disk cache files as the updater sees them; `none` means the
file does not exist, `some s` that it holds content `s`. -/
structure CacheFiles where
  taskFile : Option String
  commentFile : Option String
  projectFile : Option String
deriving DecidableEq, Repr

/-- The outcome of each external call the updater can make: whether each
`File::create` succeeds, and the body each fetch (`send` + `bytes`, lossily
decoded) yields or the error it fails with.  `write_all` is modelled as atomic:
it fully writes the body once the create and the fetch have succeeded (a
partial write would only leave yet another state differing from the
pre-invocation one, which no claim depends on). -/
structure FetchEnv where
  createTaskOk : Bool
  createCommentOk : Bool
  createProjectOk : Bool
  taskFetch : Except String String
  commentFetch : Except String String
  projectFetch : Except String String

/-- Source function `get_tasks`: `File::create("./cache/task.json")` — which truncates the
file to empty — then the HTTP fetch, then `write_all` of the body.  The `?`
on each step propagates the error; the truncation is not undone. -/
def get_tasks (env : FetchEnv) (fs : CacheFiles) :
    Except String Unit × CacheFiles :=
  if env.createTaskOk then
    let fs1 : CacheFiles := { fs with taskFile := some "" }
    match env.taskFetch with
    | Except.error e => (Except.error e, fs1)
    | Except.ok body => (Except.ok (), { fs1 with taskFile := some body })
  else (Except.error "create task.json", fs)

/-- Source function `get_comments`: same shape for `./cache/comment.json`. -/
def get_comments (env : FetchEnv) (fs : CacheFiles) :
    Except String Unit × CacheFiles :=
  if env.createCommentOk then
    let fs1 : CacheFiles := { fs with commentFile := some "" }
    match env.commentFetch with
    | Except.error e => (Except.error e, fs1)
    | Except.ok body => (Except.ok (), { fs1 with commentFile := some body })
  else (Except.error "create comment.json", fs)

/-- Source function `get_projects`: same shape for `./cache/project.json`. -/
def get_projects (env : FetchEnv) (fs : CacheFiles) :
    Except String Unit × CacheFiles :=
  if env.createProjectOk then
    let fs1 : CacheFiles := { fs with projectFile := some "" }
    match env.projectFetch with
    | Except.error e => (Except.error e, fs1)
    | Except.ok body => (Except.ok (), { fs1 with projectFile := some body })
  else (Except.error "create project.json", fs)

/-- The updater's `main`: `get_tasks().await?; get_comments().await?;
get_projects().await?` — each `?` stops the run, leaving the files as the
completed and half-completed steps left them. -/
def updaterMain (env : FetchEnv) (fs : CacheFiles) :
    Except String Unit × CacheFiles :=
  match get_tasks env fs with
  | (Except.error e, fs1) => (Except.error e, fs1)
  | (Except.ok _, fs1) =>
      match get_comments env fs1 with
      | (Except.error e, fs2) => (Except.error e, fs2)
      | (Except.ok _, fs2) => get_projects env fs2

/-- A pre-invocation cache with old content in all three files. -/
def oldFiles : CacheFiles :=
  { taskFile := some "OLDT", commentFile := some "OLDC", projectFile := some "OLDP" }

/-- A run whose task fetch fails after `File::create` already truncated the
task cache file. -/
def taskFetchFailEnv : FetchEnv :=
  { createTaskOk := true, createCommentOk := true, createProjectOk := true
    taskFetch := Except.error "connection refused"
    commentFetch := Except.ok "NEWC"
    projectFetch := Except.ok "NEWP" }

/-- A fully successful run. -/
def allOkEnv : FetchEnv :=
  { createTaskOk := true, createCommentOk := true, createProjectOk := true
    taskFetch := Except.ok "NEWT"
    commentFetch := Except.ok "NEWC"
    projectFetch := Except.ok "NEWP" }

/-- What one run of the task-control `main` does, as a function of its
argument vector: issue one request, print the missing-arguments message, do
nothing, or panic on an out-of-bounds index. -/
inductive MutatorOutcome where
  | request (action : String) (ident : String)
  | missingArgs
  | noAction
  | indexPanic
deriving DecidableEq, Repr

/-- The task-control `main` over `env::args()` (element 0 is the program
path).  `args.contains(..)` is membership, `args.iter().position(..).unwrap()`
is `List.indexOf` (the `unwrap` cannot fail under the surrounding `contains`
guard), and the panicking `&args[task_index]` indexing is `args[task_index]?`
with `none` mapped to `indexPanic`.  The awaited HTTP call is abstracted into
`request` — its network outcome never changes which branch runs. -/
def mutatorMain (args : List String) : MutatorOutcome :=
  if "-complete" ∈ args then
    if args.length > 2 then
      match args[List.indexOf "-complete" args + 1]? with
      | some ident => MutatorOutcome.request "complete" ident
      | none => MutatorOutcome.indexPanic
    else MutatorOutcome.missingArgs
  else if "-delete" ∈ args then
    if args.length > 2 then
      match args[List.indexOf "-delete" args + 1]? with
      | some ident => MutatorOutcome.request "delete" ident
      | none => MutatorOutcome.indexPanic
    else MutatorOutcome.missingArgs
  else MutatorOutcome.noAction

/-- A cache with a single task, over which a stale selection is visible. -/
def oneTaskCache : Cache :=
  { tasks := [sampleTask 1], comments := [], projects := [] }

/-- A `Monitor` state whose task selection (5) is far beyond the one-task
collection, as left over after the collection shrank. -/
def staleState : DashState :=
  { active := MenuItem.monitor
    tasksSel := some 5
    commentsSel := some 0
    projectsSel := some 0 }

/-- Handling `Down` in the active view updates only that view's selection,
by the source's wraparound computation, and leaves the active tab alone. -/
lemma handleKey_down_state (cache : Cache) (s : DashState) (v : View) (i : Nat)
    (hact : s.active = v.menu) (hsel : s.selOf v = some i) :
    (handleKey cache s KeyCode.down).state.active = s.active
    ∧ (handleKey cache s KeyCode.down).state.selOf v
        = some (downSelect i (cache.lenOf v)) := by
  cases v <;>
    simp_all [handleKey, View.menu, MenuItem.toUsize, monitorPosition,
      commentsPosition, projectsPosition, DashState.selOf, Cache.lenOf]

/-- Handling `Up` in the active view updates only that view's selection,
by the source's wraparound computation, and leaves the active tab alone. -/
lemma handleKey_up_state (cache : Cache) (s : DashState) (v : View) (i : Nat)
    (hact : s.active = v.menu) (hsel : s.selOf v = some i) :
    (handleKey cache s KeyCode.up).state.active = s.active
    ∧ (handleKey cache s KeyCode.up).state.selOf v
        = some (upSelect i (cache.lenOf v)) := by
  cases v <;>
    simp_all [handleKey, View.menu, MenuItem.toUsize, monitorPosition,
      commentsPosition, projectsPosition, DashState.selOf, Cache.lenOf]

/-- For an in-range selection, the source's `selected >= amount - 1` test
coincides with the spec's `selected = amount - 1`. -/
lemma downSelect_eq_ite (i L : Nat) (hi : i < L) :
    downSelect i L = if i = L - 1 then 0 else i + 1 := by
  unfold downSelect
  split_ifs <;> omega

/-- The source's `selected > 0` test, written with the spec's `selected = 0`
branch order. -/
lemma upSelect_eq_ite (i L : Nat) :
    upSelect i L = if i = 0 then L - 1 else i - 1 := by
  unfold upSelect
  split_ifs <;> omega

/-- C1: for every list-backed view whose cache collection has length `L ≥ 1`
and whose selection is `i` with `i < L`, `Down` while that view is active sets
the selection to `0` if `i = L - 1` and to `i + 1` otherwise, and `Up` sets it
to `L - 1` if `i = 0` and to `i - 1` otherwise. -/
theorem down_up_single_press (cache : Cache) (s : DashState) (v : View) (i : Nat)
    (hact : s.active = v.menu) (hsel : s.selOf v = some i)
    (hL : 1 ≤ cache.lenOf v) (hi : i < cache.lenOf v) :
    (handleKey cache s KeyCode.down).state.selOf v
        = some (if i = cache.lenOf v - 1 then 0 else i + 1)
    ∧ (handleKey cache s KeyCode.up).state.selOf v
        = some (if i = 0 then cache.lenOf v - 1 else i - 1) := by
  obtain ⟨-, hdown⟩ := handleKey_down_state cache s v i hact hsel
  obtain ⟨-, hup⟩ := handleKey_up_state cache s v i hact hsel
  rw [hdown, hup, downSelect_eq_ite i _ hi, upSelect_eq_ite i _]
  exact ⟨rfl, rfl⟩

/-- Witness for C1 at the sample cache (3 tasks) with selection 2: `Down`
wraps to 0 and `Up` moves to 1. -/
theorem down_up_single_press_witness :
    (monitorState.active = View.tasksView.menu
      ∧ monitorState.selOf View.tasksView = some 2
      ∧ 1 ≤ sampleCache.lenOf View.tasksView
      ∧ 2 < sampleCache.lenOf View.tasksView)
    ∧ ((handleKey sampleCache monitorState KeyCode.down).state.selOf View.tasksView
          = some (if 2 = sampleCache.lenOf View.tasksView - 1 then 0 else 2 + 1)
        ∧ (handleKey sampleCache monitorState KeyCode.up).state.selOf View.tasksView
          = some (if 2 = 0 then sampleCache.lenOf View.tasksView - 1 else 2 - 1)) :=
  ⟨⟨rfl, rfl, by decide, by decide⟩,
    down_up_single_press sampleCache monitorState View.tasksView 2 rfl rfl
      (by decide) (by decide)⟩

/-- For an in-range selection, one `Down` adds 1 modulo the length. -/
lemma downSelect_mod (i L : Nat) (hi : i < L) : downSelect i L = (i + 1) % L := by
  unfold downSelect
  split_ifs with h
  · have hiL : i + 1 = L := by omega
    rw [hiL, Nat.mod_self]
  · rw [Nat.mod_eq_of_lt (by omega)]

/-- For an in-range selection, one `Up` adds `L - 1` modulo the length. -/
lemma upSelect_mod (i L : Nat) (hi : i < L) : upSelect i L = (i + (L - 1)) % L := by
  unfold upSelect
  split_ifs with h
  · have hrw : i + (L - 1) = (i - 1) + L := by omega
    rw [hrw, Nat.add_mod_right, Nat.mod_eq_of_lt (by omega)]
  · have h0 : i = 0 := by omega
    subst h0
    rw [Nat.zero_add, Nat.mod_eq_of_lt (by omega)]

/-- A `Down` step keeps an in-range selection in range. -/
lemma downSelect_lt (i L : Nat) (hi : i < L) : downSelect i L < L := by
  unfold downSelect
  split_ifs <;> omega

/-- An `Up` step keeps an in-range selection in range. -/
lemma upSelect_lt (i L : Nat) (hi : i < L) : upSelect i L < L := by
  unfold upSelect
  split_ifs <;> omega

/-- Iterating `Down` from an in-range selection advances it by the number of
presses, modulo the collection length, and keeps the view active. -/
lemma stepDown_iterate (cache : Cache) (v : View) :
    ∀ (k : Nat) (s : DashState) (i : Nat), s.active = v.menu →
      s.selOf v = some i → i < cache.lenOf v →
      ((stepDown cache)^[k] s).active = v.menu
      ∧ ((stepDown cache)^[k] s).selOf v = some ((i + k) % cache.lenOf v) := by
  intro k
  induction k with
  | zero =>
      intro s i hact hsel hi
      simp only [Function.iterate_zero, id_eq, Nat.add_zero]
      exact ⟨hact, by rw [hsel, Nat.mod_eq_of_lt hi]⟩
  | succ n ih =>
      intro s i hact hsel hi
      obtain ⟨ha, hs⟩ := handleKey_down_state cache s v i hact hsel
      have hA : (stepDown cache s).active = v.menu := by
        unfold stepDown
        rw [ha, hact]
      have hS : (stepDown cache s).selOf v
          = some (downSelect i (cache.lenOf v)) := hs
      obtain ⟨ha2, hs2⟩ := ih (stepDown cache s) (downSelect i (cache.lenOf v))
        hA hS (downSelect_lt i _ hi)
      rw [Function.iterate_succ_apply]
      refine ⟨ha2, ?_⟩
      rw [hs2, downSelect_mod i _ hi, Nat.mod_add_mod]
      have hcomm : i + 1 + n = i + (n + 1) := by omega
      rw [hcomm]

/-- Iterating `Up` from an in-range selection advances it by `L - 1` per
press, modulo the collection length `L`, and keeps the view active. -/
lemma stepUp_iterate (cache : Cache) (v : View) :
    ∀ (k : Nat) (s : DashState) (i : Nat), s.active = v.menu →
      s.selOf v = some i → i < cache.lenOf v →
      ((stepUp cache)^[k] s).active = v.menu
      ∧ ((stepUp cache)^[k] s).selOf v
          = some ((i + k * (cache.lenOf v - 1)) % cache.lenOf v) := by
  intro k
  induction k with
  | zero =>
      intro s i hact hsel hi
      simp only [Function.iterate_zero, id_eq, Nat.zero_mul, Nat.add_zero]
      exact ⟨hact, by rw [hsel, Nat.mod_eq_of_lt hi]⟩
  | succ n ih =>
      intro s i hact hsel hi
      obtain ⟨ha, hs⟩ := handleKey_up_state cache s v i hact hsel
      have hA : (stepUp cache s).active = v.menu := by
        unfold stepUp
        rw [ha, hact]
      obtain ⟨ha2, hs2⟩ := ih (stepUp cache s) (upSelect i (cache.lenOf v))
        hA hs (upSelect_lt i _ hi)
      rw [Function.iterate_succ_apply]
      refine ⟨ha2, ?_⟩
      rw [hs2, upSelect_mod i _ hi, Nat.mod_add_mod]
      have hmul : i + (cache.lenOf v - 1) + n * (cache.lenOf v - 1)
          = i + (n + 1) * (cache.lenOf v - 1) := by
        rw [Nat.succ_mul]
        omega
      rw [Nat.add_assoc, ← Nat.add_assoc i, hmul]

/-- C2: for every view whose cache collection has length `L ≥ 1`, starting
from selection 0, `L` successive `Down` presses return the selection to 0,
and so do `L` successive `Up` presses. -/
theorem down_up_cyclic (cache : Cache) (s : DashState) (v : View)
    (hact : s.active = v.menu) (hsel : s.selOf v = some 0)
    (hL : 1 ≤ cache.lenOf v) :
    ((stepDown cache)^[cache.lenOf v] s).selOf v = some 0
    ∧ ((stepUp cache)^[cache.lenOf v] s).selOf v = some 0 := by
  obtain ⟨-, hd⟩ := stepDown_iterate cache v (cache.lenOf v) s 0 hact hsel hL
  obtain ⟨-, hu⟩ := stepUp_iterate cache v (cache.lenOf v) s 0 hact hsel hL
  rw [hd, hu, Nat.zero_add, Nat.zero_add, Nat.mod_self, Nat.mul_mod_right]
  exact ⟨rfl, rfl⟩

/-- Witness for C2 at the sample cache: three `Down` (resp. `Up`) presses
starting from task selection 0 return it to 0. -/
theorem down_up_cyclic_witness :
    (monitorState0.active = View.tasksView.menu
      ∧ monitorState0.selOf View.tasksView = some 0
      ∧ 1 ≤ sampleCache.lenOf View.tasksView)
    ∧ (((stepDown sampleCache)^[sampleCache.lenOf View.tasksView]
          monitorState0).selOf View.tasksView = some 0
      ∧ ((stepUp sampleCache)^[sampleCache.lenOf View.tasksView]
          monitorState0).selOf View.tasksView = some 0) :=
  ⟨⟨rfl, rfl, by decide⟩,
    down_up_cyclic sampleCache monitorState0 View.tasksView rfl rfl (by decide)⟩

/-- Pressing `Down` undoes `Up` on an in-range selection. -/
lemma downSelect_upSelect (i L : Nat) (hi : i < L) :
    downSelect (upSelect i L) L = i := by
  unfold downSelect upSelect
  split_ifs <;> omega

/-- Pressing `Up` undoes `Down` on an in-range selection. -/
lemma upSelect_downSelect (i L : Nat) (hi : i < L) :
    upSelect (downSelect i L) L = i := by
  unfold downSelect upSelect
  split_ifs <;> omega

/-- C3: for every view with collection length `L ≥ 1` and selection
`i < L`, pressing `Up` then `Down` returns the selection to `i`, and so does
pressing `Down` then `Up`. -/
theorem up_down_inverse (cache : Cache) (s : DashState) (v : View) (i : Nat)
    (hact : s.active = v.menu) (hsel : s.selOf v = some i)
    (hL : 1 ≤ cache.lenOf v) (hi : i < cache.lenOf v) :
    (stepDown cache (stepUp cache s)).selOf v = some i
    ∧ (stepUp cache (stepDown cache s)).selOf v = some i := by
  obtain ⟨haU, hsU⟩ := handleKey_up_state cache s v i hact hsel
  obtain ⟨haD, hsD⟩ := handleKey_down_state cache s v i hact hsel
  have hAU : (stepUp cache s).active = v.menu := by
    unfold stepUp
    rw [haU, hact]
  have hAD : (stepDown cache s).active = v.menu := by
    unfold stepDown
    rw [haD, hact]
  obtain ⟨-, h1⟩ := handleKey_down_state cache (stepUp cache s) v
    (upSelect i (cache.lenOf v)) hAU hsU
  obtain ⟨-, h2⟩ := handleKey_up_state cache (stepDown cache s) v
    (downSelect i (cache.lenOf v)) hAD hsD
  constructor
  · show (handleKey cache (stepUp cache s) KeyCode.down).state.selOf v = some i
    rw [h1, downSelect_upSelect i _ hi]
  · show (handleKey cache (stepDown cache s) KeyCode.up).state.selOf v = some i
    rw [h2, upSelect_downSelect i _ hi]

/-- Witness for C3 at the sample cache with task selection 2: `Up` then
`Down` (and `Down` then `Up`) restore selection 2. -/
theorem up_down_inverse_witness :
    (monitorState.active = View.tasksView.menu
      ∧ monitorState.selOf View.tasksView = some 2
      ∧ 1 ≤ sampleCache.lenOf View.tasksView
      ∧ 2 < sampleCache.lenOf View.tasksView)
    ∧ ((stepDown sampleCache (stepUp sampleCache monitorState)).selOf
          View.tasksView = some 2
      ∧ (stepUp sampleCache (stepDown sampleCache monitorState)).selOf
          View.tasksView = some 2) :=
  ⟨⟨rfl, rfl, by decide, by decide⟩,
    up_down_inverse sampleCache monitorState View.tasksView 2 rfl rfl
      (by decide) (by decide)⟩

/-- The `'f'` arm only dispatches in the `Monitor` tab. -/
lemma handleKey_char_f (cache : Cache) (s : DashState) :
    handleKey cache s (KeyCode.char 'f')
      = if MenuItem.toUsize s.active = monitorPosition then complete_task cache s
        else noop cache s := rfl

/-- The `'d'` arm only dispatches in the `Monitor` tab. -/
lemma handleKey_char_d (cache : Cache) (s : DashState) :
    handleKey cache s (KeyCode.char 'd')
      = if MenuItem.toUsize s.active = monitorPosition then delete_task cache s
        else noop cache s := rfl

/-- C4: pressing `f` or `d` in the `Monitor` view with task selection `i`
spawns the task-control collaborator with identifier `i + 1` (0-based position
to 1-based identifier) and changes no cache file, no selection and no tab;
in any other view both keys change nothing and spawn nothing. -/
theorem dispatch_complete_delete (cache : Cache) (s : DashState) :
    (∀ i : Nat, s.active = MenuItem.monitor → s.tasksSel = some i →
      handleKey cache s (KeyCode.char 'f')
          = { state := s, cache := cache
              spawns := [{ program := "./codeplan-task-control"
                           args := ["-complete", toString (i + 1)] }]
              quit := false }
        ∧ handleKey cache s (KeyCode.char 'd')
          = { state := s, cache := cache
              spawns := [{ program := "./codeplan-task-control"
                           args := ["-delete", toString (i + 1)] }]
              quit := false })
    ∧ (s.active ≠ MenuItem.monitor →
        handleKey cache s (KeyCode.char 'f') = noop cache s
        ∧ handleKey cache s (KeyCode.char 'd') = noop cache s) := by
  constructor
  · intro i hact hsel
    rw [handleKey_char_f, handleKey_char_d, hact]
    constructor
    · show complete_task cache s = _
      unfold complete_task
      rw [hsel]
    · show delete_task cache s = _
      unfold delete_task
      rw [hsel]
  · intro hne
    have hpos : MenuItem.toUsize s.active ≠ monitorPosition := by
      cases hactive : s.active <;>
        simp_all [MenuItem.toUsize, monitorPosition]
    rw [handleKey_char_f, handleKey_char_d, if_neg hpos, if_neg hpos]
    exact ⟨rfl, rfl⟩

/-- Witness for C4: in `Monitor` with selection 2, `f` spawns
`./codeplan-task-control -complete 3` and leaves the state alone; from the
initial `Home` state, `f` is a no-op. -/
theorem dispatch_complete_delete_witness :
    (monitorState.active = MenuItem.monitor
      ∧ monitorState.tasksSel = some 2
      ∧ handleKey sampleCache monitorState (KeyCode.char 'f')
          = { state := monitorState, cache := sampleCache
              spawns := [{ program := "./codeplan-task-control"
                           args := ["-complete", toString (2 + 1)] }]
              quit := false })
    ∧ (initState.active ≠ MenuItem.monitor
      ∧ handleKey sampleCache initState (KeyCode.char 'f')
          = noop sampleCache initState) :=
  ⟨⟨rfl, rfl,
      ((dispatch_complete_delete sampleCache monitorState).1 2 rfl rfl).1⟩,
    ⟨by decide,
      ((dispatch_complete_delete sampleCache initState).2 (by decide)).1⟩⟩

/-- A single navigation key press leaves all three selections untouched. -/
lemma handleKey_nav_sel (cache : Cache) (s : DashState) (k : KeyCode)
    (hk : k ∈ navKeys) :
    (handleKey cache s k).state.tasksSel = s.tasksSel
    ∧ (handleKey cache s k).state.commentsSel = s.commentsSel
    ∧ (handleKey cache s k).state.projectsSel = s.projectsSel := by
  fin_cases hk <;> exact ⟨rfl, rfl, rfl⟩

/-- C5: any sequence of view-switching key presses (`i`, `t`, `c`, `p`, `l`),
from any prior state and under any cache snapshots, leaves the selection index
of every view unchanged. -/
theorem nav_keys_preserve_selections :
    ∀ (l : List (Cache × KeyCode)) (s : DashState),
      (∀ p ∈ l, p.2 ∈ navKeys) →
      (runInputs s l).tasksSel = s.tasksSel
      ∧ (runInputs s l).commentsSel = s.commentsSel
      ∧ (runInputs s l).projectsSel = s.projectsSel := by
  intro l
  induction l with
  | nil => exact fun s _ => ⟨rfl, rfl, rfl⟩
  | cons p rest ih =>
      intro s h
      obtain ⟨c, k⟩ := p
      obtain ⟨h1, h2, h3⟩ :=
        handleKey_nav_sel c s k (h (c, k) (List.mem_cons_self _ _))
      obtain ⟨g1, g2, g3⟩ := ih ((handleKey c s k).state)
        (fun q hq => h q (List.mem_cons_of_mem _ hq))
      exact ⟨g1.trans h1, g2.trans h2, g3.trans h3⟩

/-- Witness for C5: the sequence `t`, `c`, `t` from the monitor state keeps
every selection where it was. -/
theorem nav_keys_preserve_selections_witness :
    (∀ p ∈ navSeq, p.2 ∈ navKeys)
    ∧ ((runInputs monitorState navSeq).tasksSel = monitorState.tasksSel
      ∧ (runInputs monitorState navSeq).commentsSel = monitorState.commentsSel
      ∧ (runInputs monitorState navSeq).projectsSel = monitorState.projectsSel) :=
  ⟨by decide, nav_keys_preserve_selections navSeq monitorState (by decide)⟩

/-- The function `complete_task` never writes the dashboard state. -/
lemma complete_task_state (cache : Cache) (s : DashState) :
    (complete_task cache s).state = s := by
  unfold complete_task noop
  cases hts : s.tasksSel <;> simp [hts]

/-- The function `delete_task` never writes the dashboard state. -/
lemma delete_task_state (cache : Cache) (s : DashState) :
    (delete_task cache s).state = s := by
  unfold delete_task noop
  cases hts : s.tasksSel <;> simp [hts]

set_option maxHeartbeats 1000000 in
/-- Every `Char` arm either keeps the active tab or assigns one of the five
named tabs — never `Error`. -/
lemma handleKey_char_no_error (cache : Cache) (s : DashState) (c : Char) :
    (handleKey cache s (KeyCode.char c)).state.active = s.active
    ∨ (handleKey cache s (KeyCode.char c)).state.active ≠ MenuItem.error := by
  simp only [handleKey]
  split_ifs <;> simp [complete_task_state, delete_task_state, noop]

set_option maxHeartbeats 1000000 in
/-- The `Down` arm never changes the active tab. -/
lemma handleKey_down_active (cache : Cache) (s : DashState) :
    (handleKey cache s KeyCode.down).state.active = s.active := by
  simp only [handleKey]
  split_ifs <;> first | rfl | (split <;> rfl)

set_option maxHeartbeats 1000000 in
/-- The `Up` arm never changes the active tab. -/
lemma handleKey_up_active (cache : Cache) (s : DashState) :
    (handleKey cache s KeyCode.up).state.active = s.active := by
  simp only [handleKey]
  split_ifs <;> first | rfl | (split <;> rfl)

/-- No key arm assigns `MenuItem::Error`: a key press from a non-`Error` tab
lands in a non-`Error` tab. -/
lemma handleKey_no_error (cache : Cache) (s : DashState) (k : KeyCode)
    (h : s.active ≠ MenuItem.error) :
    (handleKey cache s k).state.active ≠ MenuItem.error := by
  cases k with
  | char c =>
      rcases handleKey_char_no_error cache s c with heq | hne
      · rw [heq]
        exact h
      · exact hne
  | down =>
      rw [handleKey_down_active]
      exact h
  | up =>
      rw [handleKey_up_active]
      exact h
  | otherKey => exact h

/-- The non-`Error` invariant survives any finite run of the consumer loop. -/
lemma runEvents_no_error :
    ∀ (l : List (Cache × Event)) (s : DashState),
      s.active ≠ MenuItem.error → (runEvents s l).active ≠ MenuItem.error := by
  intro l
  induction l with
  | nil => exact fun s h => h
  | cons p rest ih =>
      intro s h
      obtain ⟨c, e⟩ := p
      have hstep : (handleEvent c s e).state.active ≠ MenuItem.error := by
        cases e with
        | input k => exact handleKey_no_error c s k h
        | tick => exact h
      show (if (handleEvent c s e).quit then (handleEvent c s e).state
            else runEvents (handleEvent c s e).state rest).active
          ≠ MenuItem.error
      split_ifs
      · exact hstep
      · exact ih _ hstep

/-- C6: starting from the initial `Home` state, no finite sequence of input or
tick events reaches the `Error` menu state — every key arm assigns only
`Home`, `Monitor`, `Comments`, `Projects` or `License`. -/
theorem error_state_unreachable (l : List (Cache × Event)) :
    (runEvents initState l).active ≠ MenuItem.error :=
  runEvents_no_error l initState (by decide)

/-- Counterexample to C7 as stated: in `tickFailEnv` the `Tick` send fails,
yet the iteration returns normally — the failure is silently ignored, not
fatal to the producer thread. -/
theorem tick_send_failure_not_fatal :
    tickFailEnv.sendTickResult = Except.error "disconnected"
    ∧ producerStep tickFailEnv
        = Except.ok { sent := [], resetBaseline := false } :=
  ⟨rfl, rfl⟩

/-- C7 (amended): a failure to poll, to read an input event, or to send an
`Input` event is fatal to the producer thread; a failure to send a `Tick` is
silently swallowed — that iteration completes normally, only without
resetting the tick baseline. -/
theorem producer_failure_policy :
    (∀ (env : ProdEnv) (m : String), env.pollResult = Except.error m →
      producerStep env = Except.error "poll works")
    ∧ (∀ (env : ProdEnv) (m : String), env.pollResult = Except.ok true →
        env.readResult = Except.error m →
        producerStep env = Except.error "can read events")
    ∧ (∀ (env : ProdEnv) (m : String) (k : KeyCode),
        env.pollResult = Except.ok true → env.readResult = Except.ok (some k) →
        env.sendInputResult = Except.error m →
        producerStep env = Except.error "can send events")
    ∧ (∀ (env : ProdEnv) (m : String), env.pollResult = Except.ok false →
        env.tickDue = true → env.sendTickResult = Except.error m →
        producerStep env = Except.ok { sent := [], resetBaseline := false }) := by
  refine ⟨?_, ?_, ?_, ?_⟩
  · intro env m hp
    unfold producerStep
    rw [hp]
  · intro env m hp hr
    unfold producerStep
    rw [hp, hr]
    rfl
  · intro env m k hp hr hs
    unfold producerStep
    rw [hp, hr, hs]
    rfl
  · intro env m hp ht hs
    unfold producerStep
    rw [hp, ht, hs]
    rfl

/-- Witness for the amended C7: a failing poll panics with the source's
message, and `tickFailEnv`'s failing `Tick` send completes normally. -/
theorem producer_failure_policy_witness :
    (pollFailEnv.pollResult = Except.error "EIO"
      ∧ producerStep pollFailEnv = Except.error "poll works")
    ∧ (tickFailEnv.pollResult = Except.ok false
      ∧ tickFailEnv.tickDue = true
      ∧ tickFailEnv.sendTickResult = Except.error "disconnected"
      ∧ producerStep tickFailEnv
          = Except.ok { sent := [], resetBaseline := false }) :=
  ⟨⟨rfl, producer_failure_policy.1 pollFailEnv "EIO" rfl⟩,
    ⟨rfl, rfl, rfl,
      producer_failure_policy.2.2.2 tickFailEnv "disconnected" rfl rfl rfl⟩⟩

/-- Counterexample to C8 as stated: the failing run ends with the task cache
file truncated to the empty string, not in its pre-invocation state. -/
theorem updater_failure_clobbers_cache :
    (updaterMain taskFetchFailEnv oldFiles).1
        = Except.error "connection refused"
    ∧ (updaterMain taskFetchFailEnv oldFiles).2.taskFile = some ""
    ∧ oldFiles.taskFile = some "OLDT" :=
  ⟨rfl, rfl, rfl⟩

/-- C8 (amended): the fetcher gives no restore-on-failure guarantee — if step
`k` fails at its fetch, the files of steps not yet started keep their prior
state, the files of completed steps already hold the newly fetched content,
and the failing step's own file has been truncated to empty by `File::create`;
only on a fully successful run do the three files hold the fetched bodies. -/
theorem updater_write_behavior (env : FetchEnv) (fs : CacheFiles) :
    (∀ m : String, env.createTaskOk = true → env.taskFetch = Except.error m →
      updaterMain env fs = (Except.error m, { fs with taskFile := some "" }))
    ∧ (∀ m t : String, env.createTaskOk = true → env.taskFetch = Except.ok t →
        env.createCommentOk = true → env.commentFetch = Except.error m →
        updaterMain env fs
          = (Except.error m,
             { fs with taskFile := some t, commentFile := some "" }))
    ∧ (∀ m t c : String, env.createTaskOk = true → env.taskFetch = Except.ok t →
        env.createCommentOk = true → env.commentFetch = Except.ok c →
        env.createProjectOk = true → env.projectFetch = Except.error m →
        updaterMain env fs
          = (Except.error m,
             { fs with taskFile := some t, commentFile := some c
                       projectFile := some "" }))
    ∧ (∀ t c p : String, env.createTaskOk = true → env.taskFetch = Except.ok t →
        env.createCommentOk = true → env.commentFetch = Except.ok c →
        env.createProjectOk = true → env.projectFetch = Except.ok p →
        updaterMain env fs
          = (Except.ok (),
             { taskFile := some t, commentFile := some c
               projectFile := some p })) := by
  refine ⟨?_, ?_, ?_, ?_⟩
  · intro m hct hft
    unfold updaterMain get_tasks
    rw [hct, hft]
    rfl
  · intro m t hct hft hcc hfc
    unfold updaterMain get_tasks get_comments
    rw [hct, hft, hcc, hfc]
    rfl
  · intro m t c hct hft hcc hfc hcp hfp
    unfold updaterMain get_tasks get_comments get_projects
    rw [hct, hft, hcc, hfc, hcp, hfp]
    rfl
  · intro t c p hct hft hcc hfc hcp hfp
    unfold updaterMain get_tasks get_comments get_projects
    rw [hct, hft, hcc, hfc, hcp, hfp]
    rfl

/-- Witness for the amended C8: the failing run truncates only the failing
step's file, and a fully successful run overwrites all three. -/
theorem updater_write_behavior_witness :
    (taskFetchFailEnv.createTaskOk = true
      ∧ taskFetchFailEnv.taskFetch = Except.error "connection refused"
      ∧ updaterMain taskFetchFailEnv oldFiles
          = (Except.error "connection refused",
             { oldFiles with taskFile := some "" }))
    ∧ (allOkEnv.taskFetch = Except.ok "NEWT"
      ∧ updaterMain allOkEnv oldFiles
          = (Except.ok (),
             { taskFile := some "NEWT", commentFile := some "NEWC"
               projectFile := some "NEWP" })) :=
  ⟨⟨rfl, rfl,
      (updater_write_behavior taskFetchFailEnv oldFiles).1
        "connection refused" rfl rfl⟩,
    ⟨rfl,
      (updater_write_behavior allOkEnv oldFiles).2.2.2
        "NEWT" "NEWC" "NEWP" rfl rfl rfl rfl rfl rfl⟩⟩

/-- When a flag occurs only as the last element, it is in the vector and the
lookup one past its position is out of bounds. -/
lemma last_only_flag_lookup (args : List String) (flag : String)
    (hlast : args.getLast? = some flag) (hnot : flag ∉ args.dropLast) :
    flag ∈ args ∧ args[List.indexOf flag args + 1]? = none := by
  have hsplit : args.dropLast ++ [flag] = args :=
    List.dropLast_append_getLast? flag (by rw [hlast]; rfl)
  constructor
  · rw [← hsplit]
    exact List.mem_append_right _ (List.mem_singleton.mpr rfl)
  · have hidx : List.indexOf flag args = args.dropLast.length := by
      conv_lhs => rw [← hsplit]
      rw [List.indexOf_append_of_not_mem hnot, List.indexOf_cons_self]
      omega
    have hlen : args.length = args.dropLast.length + 1 := by
      conv_lhs => rw [← hsplit]
      simp
    rw [hidx]
    exact List.getElem?_len_le (by omega)

/-- C9: an argument vector of length at least 3 whose `-complete` flag occurs
only as the last element passes the guards, and the identifier lookup at the
position after the flag indexes one past the end and panics, instead of
issuing a request or printing the missing-arguments message; likewise for
`-delete` (whose branch runs when `-complete` is absent). -/
theorem mutator_flag_last_panics (args : List String) (h3 : 3 ≤ args.length) :
    (args.getLast? = some "-complete" → "-complete" ∉ args.dropLast →
      mutatorMain args = MutatorOutcome.indexPanic)
    ∧ (args.getLast? = some "-delete" → "-delete" ∉ args.dropLast →
        "-complete" ∉ args →
        mutatorMain args = MutatorOutcome.indexPanic) := by
  constructor
  · intro hlast hnot
    obtain ⟨hmem, hnone⟩ := last_only_flag_lookup args "-complete" hlast hnot
    unfold mutatorMain
    rw [if_pos hmem, if_pos (by omega), hnone]
  · intro hlast hnot hnc
    obtain ⟨hmem, hnone⟩ := last_only_flag_lookup args "-delete" hlast hnot
    unfold mutatorMain
    rw [if_neg hnc, if_pos hmem, if_pos (by omega), hnone]

/-- Witness for C9: `./codeplan-task-control foo -complete` panics instead of
requesting or reporting missing arguments. -/
theorem mutator_flag_last_panics_witness :
    (3 ≤ (["./codeplan-task-control", "foo", "-complete"] : List String).length
      ∧ (["./codeplan-task-control", "foo", "-complete"] : List String).getLast?
          = some "-complete"
      ∧ "-complete"
          ∉ (["./codeplan-task-control", "foo", "-complete"] : List String).dropLast)
    ∧ mutatorMain ["./codeplan-task-control", "foo", "-complete"]
        = MutatorOutcome.indexPanic :=
  ⟨⟨by decide, by decide, by decide⟩,
    (mutator_flag_last_panics ["./codeplan-task-control", "foo", "-complete"]
        (by decide)).1 (by decide) (by decide)⟩

/-- Because the `Down` arm compares with `>=`, it maps any selection — even a
stale one at or beyond `amount - 1` — into range whenever the collection is
non-empty. -/
lemma downSelect_lt_of_len_pos (sel L : Nat) (hL : 1 ≤ L) :
    downSelect sel L < L := by
  unfold downSelect
  split_ifs <;> omega

/-- A stale selection at or beyond `L - 1` is reset to 0 by one `Down`. -/
lemma downSelect_stale (sel L : Nat) (h : L - 1 ≤ sel) :
    downSelect sel L = 0 := by
  unfold downSelect
  split_ifs <;> omega

/-- C10: after any `Down` press in a view backed by a collection of length
`L ≥ 1`, the selection lies in `[0, L)` regardless of the prior value, and a
stale selection at or beyond `L - 1` is reset to 0; the `Up` handler gives no
such guarantee — from the stale selection 5 over a one-element collection it
yields 4, still out of range. -/
theorem stale_selection_behavior :
    (∀ (cache : Cache) (s : DashState) (v : View) (sel : Nat),
      s.active = v.menu → s.selOf v = some sel → 1 ≤ cache.lenOf v →
      (handleKey cache s KeyCode.down).state.selOf v
          = some (downSelect sel (cache.lenOf v))
        ∧ downSelect sel (cache.lenOf v) < cache.lenOf v
        ∧ (cache.lenOf v - 1 ≤ sel → downSelect sel (cache.lenOf v) = 0))
    ∧ (∃ (cache : Cache) (s : DashState) (v : View) (sel : Nat),
        s.active = v.menu ∧ s.selOf v = some sel ∧ 1 ≤ cache.lenOf v
        ∧ 0 < sel
        ∧ (handleKey cache s KeyCode.up).state.selOf v
            = some (upSelect sel (cache.lenOf v))
        ∧ upSelect sel (cache.lenOf v) = sel - 1
        ∧ ¬ upSelect sel (cache.lenOf v) < cache.lenOf v) := by
  constructor
  · intro cache s v sel hact hsel hL
    obtain ⟨-, hdown⟩ := handleKey_down_state cache s v sel hact hsel
    exact ⟨hdown, downSelect_lt_of_len_pos sel _ hL,
      fun h => downSelect_stale sel _ h⟩
  · exact ⟨oneTaskCache, staleState, View.tasksView, 5, rfl, rfl,
      by decide, by decide, rfl, by decide, by decide⟩

/-- Witness for C10's universal part at the stale state: one `Down` over the
one-task collection resets the selection to 0. -/
theorem stale_selection_behavior_witness :
    (staleState.active = View.tasksView.menu
      ∧ staleState.selOf View.tasksView = some 5
      ∧ 1 ≤ oneTaskCache.lenOf View.tasksView)
    ∧ ((handleKey oneTaskCache staleState KeyCode.down).state.selOf View.tasksView
          = some (downSelect 5 (oneTaskCache.lenOf View.tasksView))
        ∧ downSelect 5 (oneTaskCache.lenOf View.tasksView)
            < oneTaskCache.lenOf View.tasksView
        ∧ (oneTaskCache.lenOf View.tasksView - 1 ≤ 5 →
            downSelect 5 (oneTaskCache.lenOf View.tasksView) = 0)) :=
  ⟨⟨rfl, rfl, by decide⟩,
    stale_selection_behavior.1 oneTaskCache staleState View.tasksView 5
      rfl rfl (by decide)⟩

end Codeplan

